import Mathlib

/-!
Verification development for the RasterIO library (RasterIO_Arc10.6.py).

The library offers random access reads and writes over large 2D raster grids:
getValue and setValue address cells by (row, col), writes are buffered in a
sparse overlay dictionary, and save flushes the overlay by cutting the grid
into blocksize-sized tiles, rebuilding each tile in an independent worker
process, and mosaicking the tiles into one output file.

The shallow embedding below translates the Python source.  Spatial
coordinates (raster extents, cell sizes) are modelled with exact rationals;
cell values with integers; the Python dict-of-dicts overlay with association
lists; the arcpy collaborators (RasterToNumPyArray, NumPyArrayToRaster,
MosaicToNewRaster) at the cell level following the collaborator contracts.
Element-type bookkeeping (dtype / pixelType) and coordinate-reference-system
metadata are not modelled: no verified property depends on them.
-/

namespace Raster

/-- Spatial extent of a raster, in map units (exact rationals model the
Python floats held by arcpy extent objects). -/
structure Extent where
  XMin : ℚ
  YMin : ℚ
  XMax : ℚ
  YMax : ℚ
  deriving DecidableEq

/-- A raster: descriptor plus cell contents.  `data r c` is the stored value
at row `r` (0 = top), column `c`; only indices inside
[0,height) x [0,width) are meaningful.  A cell is NoData exactly when its
stored value equals `noDataValue`. -/
structure Grid where
  width : Int
  height : Int
  extent : Extent
  meanCellWidth : ℚ
  meanCellHeight : ℚ
  noDataValue : Int
  data : Int → Int → Int

/-- Association-list lookup, mirroring a Python dict read. -/
def lookupA {α : Type} : List (Int × α) → Int → Option α
  | [], _ => none
  | (k, v) :: t, k2 => if k = k2 then some v else lookupA t k2

/-- Association-list store, mirroring a Python dict update: overwrite the
existing binding if the key is present, otherwise append a new one. -/
def insertA {α : Type} : List (Int × α) → Int → α → List (Int × α)
  | [], k, v => [(k, v)]
  | (k0, v0) :: t, k, v =>
      if k0 = k then (k0, v) :: t else (k0, v0) :: insertA t k v

/-- The overlay of pending writes: the `self.dict` mapping
row -> (col -> value). -/
def Overlay : Type := List (Int × List (Int × Int))

instance : DecidableEq Overlay := by unfold Overlay; infer_instance

/-- Read a pending write from the overlay (the two-level lookup performed by
getValue, lines 169-171 of the source). -/
def ovLookup (d : Overlay) (row col : Int) : Option Int :=
  match lookupA d row with
  | none => none
  | some m => lookupA m col

/-- Store a pending write in the overlay, exactly as setValue does
(lines 206-210): create the row dict when absent, then update the column. -/
def ovInsert (d : Overlay) (row col v : Int) : Overlay :=
  let d1 := if lookupA d row = none then insertA d row [] else d
  insertA d1 row (insertA ((lookupA d1 row).getD []) col v)

/-- Number of distinct (row, col) pairs held by the overlay. -/
def ovCount (d : Overlay) : Nat :=
  (d.map fun p => p.2.length).sum

/-- Python 2 round to the nearest integer: halves round away from zero. -/
def pyround (q : ℚ) : Int :=
  if q < 0 then -⌊-q + 1/2⌋ else ⌊q + 1/2⌋

/-- round(q, 3) of the source: round to 3 decimal places. -/
def round3 (q : ℚ) : ℚ :=
  (pyround (q * 1000) : ℚ) / 1000

/-- Condition under which RasterIO.checkMatch (lines 66-74) raises
"Input rasters must have same size and resolution": the two extents differ
after rounding each bound to 3 decimals, or the sizes differ. -/
def checkMatchRaises (a b : Grid) : Bool :=
  decide (round3 a.extent.XMin ≠ round3 b.extent.XMin ∨
    round3 a.extent.YMin ≠ round3 b.extent.YMin ∨
    round3 a.extent.XMax ≠ round3 b.extent.XMax ∨
    round3 a.extent.YMax ≠ round3 b.extent.YMax ∨
    a.height ≠ b.height ∨
    a.width ≠ b.width)

/-- RasterIO.XtoCol (line 76-77): map coordinate to column index. -/
def XtoCol (g : Grid) (X : ℚ) : Int :=
  ⌊(X - g.extent.XMin) / g.meanCellWidth⌋

/-- RasterIO.YtoRow (line 78-79): map coordinate to row index. -/
def YtoRow (g : Grid) (Y : ℚ) : Int :=
  g.height - ⌊(Y - g.extent.YMin) / g.meanCellHeight⌋ - 1

/-- RasterIO.ColtoX (line 80-81): cell-center coordinate of a column. -/
def ColtoX (g : Grid) (col : Int) : ℚ :=
  g.extent.XMin + ((col : ℚ) + 1/2) * g.meanCellWidth

/-- RasterIO.RowtoY (line 82-83): cell-center coordinate of a row. -/
def RowtoY (g : Grid) (row : Int) : ℚ :=
  g.extent.YMax - ((row : ℚ) + 1/2) * g.meanCellHeight

/-- Model of the grid-storage reader collaborator
(arcpy.RasterToNumPyArray(g, Point(mx, my), ncols, nrows, fill)): the window
of `g` whose lower-left corner sits at map point (mx, my), `ncols` cells wide
and `nrows` cells tall.  Entry (i, j) of the returned array (i counted from
the top row of the window) is the stored value of the corresponding grid
cell; NoData cells and cells outside the grid read as `fill`. -/
def rasterToNumPyArray (g : Grid) (mx my : ℚ) (ncols nrows : Int) (fill : Int) :
    Int → Int → Int :=
  fun i j =>
    let col0 : Int := ⌊(mx - g.extent.XMin) / g.meanCellWidth⌋
    let rowTop : Int := g.height - ⌊(my - g.extent.YMin) / g.meanCellHeight⌋ - nrows
    let r := rowTop + i
    let c := col0 + j
    if 0 ≤ r ∧ r < g.height ∧ 0 ≤ c ∧ c < g.width then
      if g.data r c = g.noDataValue then fill else g.data r c
    else fill

/-- Model of the grid-storage writer collaborator
(arcpy.NumPyArrayToRaster(arr, Point(mx, my), cw, ch, nodata)): a raster of
`nrows` x `ncols` cells whose lower-left corner is (mx, my), backed by the
array. -/
def numPyArrayToRaster (arr : Int → Int → Int) (mx my cw ch : ℚ)
    (ncols nrows : Int) (nodata : Int) : Grid :=
  { width := ncols
    height := nrows
    extent := ⟨mx, my, mx + ncols * cw, my + nrows * ch⟩
    meanCellWidth := cw
    meanCellHeight := ch
    noDataValue := nodata
    data := arr }

/-- A map point is inside the extent of a raster (cell centers of the call
sites are never on an extent edge, so the edge convention is immaterial). -/
def containsPointB (g : Grid) (px py : ℚ) : Bool :=
  decide (g.extent.XMin ≤ px ∧ px < g.extent.XMax ∧
    g.extent.YMin < py ∧ py ≤ g.extent.YMax)

/-- Value of a raster at a map point: the cell whose footprint holds the
point, or `fallback` when the point is outside the raster. -/
def valueAtPoint (g : Grid) (px py : ℚ) (fallback : Int) : Int :=
  if containsPointB g px py then
    g.data ⌊(g.extent.YMax - py) / g.meanCellHeight⌋
      ⌊(px - g.extent.XMin) / g.meanCellWidth⌋
  else fallback

/-- Union of the extents of a list of rasters, component by component. -/
def unionExtent (tiles : List Grid) : Extent :=
  match tiles with
  | [] => ⟨0, 0, 0, 0⟩
  | t :: ts =>
    ⟨(t :: ts).foldl (fun m u => min m u.extent.XMin) t.extent.XMin,
     (t :: ts).foldl (fun m u => min m u.extent.YMin) t.extent.YMin,
     (t :: ts).foldl (fun m u => max m u.extent.XMax) t.extent.XMax,
     (t :: ts).foldl (fun m u => max m u.extent.YMax) t.extent.YMax⟩

/-- Model of the mosaic collaborator (arcpy.MosaicToNewRaster_management):
one raster covering the union of the tile extents, each cell taking its
value from the last listed tile whose extent holds the cell center (tiles in
this program are pairwise disjoint, so the order is immaterial); the cell
size is taken from the ambient environment, which save sets from the
template raster. -/
def mosaicToNewRaster (tiles : List Grid) (cw ch : ℚ) (nodata : Int) : Grid :=
  let e := unionExtent tiles
  { width := ⌊(e.XMax - e.XMin) / cw⌋
    height := ⌊(e.YMax - e.YMin) / ch⌋
    extent := e
    meanCellWidth := cw
    meanCellHeight := ch
    noDataValue := nodata
    data := fun r c =>
      let px := e.XMin + ((c : ℚ) + 1/2) * cw
      let py := e.YMax - ((r : ℚ) + 1/2) * ch
      tiles.foldl (fun acc t => valueAtPoint t px py acc) nodata }

/-- State of a RasterIOfull instance.  `rasterlike` is the template grid,
`raster` the backing grid (absent for a brand-new output before the first
flush), `dict`/`dictsize` the overlay of pending writes and its distinct-key
counter, `block`/`xblock`/`yblock` the cached read window and its top-left
cell offset.  `blocksize` is the class attribute of RasterIOfull (4096 in
the source, declared tunable); the file-system fields (fileout path,
catalogPath) and the dtype tag are not modelled. -/
structure RState where
  rasterlike : Grid
  raster : Option Grid
  nodata : Int
  blocksize : Nat := 4096
  block : Option (Int → Int → Int)
  xblock : Int
  yblock : Int
  dict : Overlay
  dictsize : Nat

/-- RasterIOfull constructor, output-creation mode (fileout given,
lines 138-143 and 157-161): the template is kept as `rasterlike`, there is
no backing raster yet, and the no-data sentinel is the `default` argument. -/
def initNew (template : Grid) (default : Int) : RState :=
  { rasterlike := template
    raster := none
    nodata := default
    block := none
    xblock := 0
    yblock := 0
    dict := []
    dictsize := 0 }

/-- RasterIOfull constructor, existing-raster mode (lines 144-161): the
raster backs itself and supplies the no-data sentinel. -/
def initExisting (g : Grid) : RState :=
  { rasterlike := g
    raster := some g
    nodata := g.noDataValue
    block := none
    xblock := 0
    yblock := 0
    dict := []
    dictsize := 0 }

/-- RasterIOfull.getValue (lines 163-202).  Returns the value together with
the possibly updated state (reading can replace the cached window).  Order
of consultation: bounds check against the template, then overlay, then
no-raster short-circuit, then the cached window, reloading it centered on
the requested cell when the cell falls outside the current window. -/
def getValue (s : RState) (row col : Int) : Int × RState :=
  if row < 0 ∨ col < 0 ∨ row ≥ s.rasterlike.height ∨ col ≥ s.rasterlike.width then
    (s.nodata, s)
  else
    match ovLookup s.dict row col with
    | some v => (v, s)
    | none =>
      match s.raster with
      | none => (s.nodata, s)
      | some rast =>
        let s1 :=
          if s.block.isNone = true ∨ col < s.xblock ∨ col ≥ s.xblock + (s.blocksize : Int) ∨
              row < s.yblock ∨ row ≥ s.yblock + (s.blocksize : Int) then
            let xb : Int := max 0 (col - (s.blocksize / 2 : Nat))
            let yb : Int := max 0 (row - (s.blocksize / 2 : Nat))
            let mx : ℚ := rast.extent.XMin + (xb : ℚ) * rast.meanCellWidth
            let my : ℚ := max rast.extent.YMin
              (rast.extent.YMax - ((s.blocksize : ℚ) + (yb : ℚ)) * rast.meanCellHeight)
            let lx : Int := min (xb + (s.blocksize : Int)) rast.width
            let ly : Int := min (yb + (s.blocksize : Int)) rast.height
            { s with
                block := some (rasterToNumPyArray rast mx my (lx - xb) (ly - yb) s.nodata)
                xblock := xb
                yblock := yb }
          else s
        let v := (s1.block.getD fun _ _ => 0) (row - s1.yblock) (col - s1.xblock)
        let v2 := if v = rast.noDataValue then s.nodata else v
        (v2, s1)

/-- The tile worker (the main block of the source, lines 325-388), run once
per tile: rebuild the tile at cell origin (x, y) by loading the matching
window of the backing raster (or an all-no-data block when there is none)
and overwriting it with every overlay entry that falls inside the tile, then
persist it via the grid-storage writer. -/
def tileWorker (rl : Grid) (raster : Option Grid) (x y : Int) (bs : Nat)
    (nodata : Int) (d : Overlay) : Grid :=
  let mx : ℚ := rl.extent.XMin + (x : ℚ) * rl.meanCellWidth
  let my : ℚ := max rl.extent.YMin
    (rl.extent.YMax - ((bs : ℚ) + (y : ℚ)) * rl.meanCellHeight)
  let lx : Int := min (x + (bs : Int)) rl.width
  let ly : Int := min (y + (bs : Int)) rl.height
  let base : Int → Int → Int :=
    match raster with
    | some rast => rasterToNumPyArray rast mx my (lx - x) (ly - y) nodata
    | none => fun _ _ => nodata
  let myData : Int → Int → Int := fun i j =>
    match ovLookup d (y + i) (x + j) with
    | some v =>
        if y + i < ly ∧ y ≤ y + i ∧ x + j < lx ∧ x ≤ x + j then v else base i j
    | none => base i j
  numPyArrayToRaster myData mx my rl.meanCellWidth rl.meanCellHeight
    (lx - x) (ly - y) nodata

/-- Python range(0, stop, step) for a positive step. -/
def pyRange0 (stop : Int) (step : Nat) : List Int :=
  (List.range ((stop.toNat + step - 1) / step)).map fun i => ((i * step : Nat) : Int)

/-- The tiles produced by RasterIOfull.save (loop of lines 234-270): outer
loop over x, inner loop over y, both stepping by blocksize, one worker
invocation per tile, collected in loop order. -/
def saveTiles (s : RState) : List Grid :=
  (pyRange0 s.rasterlike.width s.blocksize).flatMap fun x =>
    (pyRange0 s.rasterlike.height s.blocksize).map fun y =>
      tileWorker s.rasterlike s.raster x y s.blocksize s.nodata s.dict

/-- Fallback grid for indexing the first element of a file list; save only
indexes a nonempty list. -/
def emptyGrid : Grid :=
  { width := 0, height := 0, extent := ⟨0, 0, 0, 0⟩, meanCellWidth := 1,
    meanCellHeight := 1, noDataValue := 0, data := fun _ _ => 0 }

/-- The output grid persisted by RasterIOfull.save (lines 277-298): the
mosaic of the temporary tiles when there is more than one, otherwise a
direct copy of the single tile. -/
def saveOutput (s : RState) : Grid :=
  let filelist := saveTiles s
  if 1 < filelist.length then
    mosaicToNewRaster filelist s.rasterlike.meanCellWidth
      s.rasterlike.meanCellHeight s.nodata
  else filelist.headD emptyGrid

/-- State effect of RasterIOfull.save (lines 220-319): the backing raster is
refreshed to the freshly written output (line 311).  The overlay, its
counter, and the cached read window are left untouched by save itself. -/
def save (s : RState) : RState :=
  { s with raster := some (saveOutput s) }

/-- RasterIOfull.setValue (lines 205-217): store the write in the overlay,
counting only first insertions of a (row, col) key, then flush when the
counter exceeds blocksize^2/2, clearing overlay and counter afterwards. -/
def setValue (s : RState) (row col v : Int) : RState :=
  let d1 := if lookupA s.dict row = none then insertA s.dict row [] else s.dict
  let newKey := lookupA ((lookupA d1 row).getD []) col = none
  let size1 := if newKey then s.dictsize + 1 else s.dictsize
  let d2 := insertA d1 row (insertA ((lookupA d1 row).getD []) col v)
  let s1 : RState := { s with dict := d2, dictsize := size1 }
  if s.blocksize * s.blocksize / 2 < size1 then
    let s2 := save s1
    { s2 with dict := [], dictsize := 0 }
  else s1

/-- On-disk state touched by one save invocation: the content at the output
path, the temporary tile files, and the serialized overlay handoff artifact
(the pickle file). -/
structure FS where
  outfile : Option Grid
  temps : List Grid
  pickle : Bool

/-- The worker loop of save (lines 234-270) with an outcome oracle `ok` for
the subprocess.check_call of each tile worker: successful workers append
their temporary file, a failing worker raises CalledProcessError, which
aborts the loop and propagates with the disk in its current state. -/
def workerLoop (ok : Nat → Bool) : List Grid → Nat → FS → Except FS FS
  | [], _, fs => .ok fs
  | t :: ts, k, fs =>
    if ok k then workerLoop ok ts (k + 1) { fs with temps := fs.temps ++ [t] }
    else .error fs

/-- Control-flow and file-system effect of RasterIOfull.save (lines
220-319), with outcome oracles for the external collaborators: write the
handoff artifact, run the tile workers in order, remove the handoff
artifact, delete the previous output, mosaic (or copy) the tiles into the
output, delete the temporary tiles, refresh the backing raster.  An error
value models the exception propagating to the caller, carrying the disk
state at the point of the raise. -/
def saveRun (ok : Nat → Bool) (mosaicOk : Bool) (s : RState) (fs0 : FS) :
    Except FS (RState × FS) :=
  let fs1 : FS := { fs0 with pickle := true }
  match workerLoop ok (saveTiles s) 0 fs1 with
  | .error fs => .error fs
  | .ok fs2 =>
    let fs3 : FS := { fs2 with pickle := false }
    let fs4 : FS := { fs3 with outfile := none }
    if mosaicOk then
      .ok (save s, { fs4 with outfile := some (saveOutput s), temps := [] })
    else .error fs4

/-- Number of temporary tile files left on disk when save raised. -/
def errTempsCount : Except FS (RState × FS) → Nat
  | .error fs => fs.temps.length
  | .ok _ => 0

/-- One client-visible operation on a RasterIOfull instance. -/
inductive ROp
  | rget (row col : Int)
  | rset (row col v : Int)
  | rsave

/-- Apply one operation to the instance state. -/
def applyOp (s : RState) : ROp → RState
  | .rget r c => (getValue s r c).2
  | .rset r c v => setValue s r c v
  | .rsave => save s

/-- Run a sequence of operations. -/
def runOps (s : RState) (ops : List ROp) : RState :=
  ops.foldl applyOp s

/-! Concrete instances used as test inputs by the witnesses and
counterexamples below. -/

/-- A 4 x 4 backing raster with value 5 everywhere, unit cells, origin 0,
no-data sentinel -255. -/
def g4cells : Grid :=
  { width := 4, height := 4, extent := ⟨0, 0, 4, 4⟩, meanCellWidth := 1,
    meanCellHeight := 1, noDataValue := -255, data := fun _ _ => 5 }

/-- Existing-raster instance over `g4cells` with the blocksize attribute
tuned to 2 so that window and flush behaviour is visible on a tiny grid. -/
def stale0 : RState := { initExisting g4cells with blocksize := 2 }

/-- After one read at (0,0): the window covering rows 0-1, cols 0-1 is
cached. -/
def stale1 : RState := (getValue stale0 0 0).2

/-- Two buffered writes (threshold is blocksize^2/2 = 2, not yet crossed). -/
def stale2 : RState := setValue stale1 0 0 7

/-- Second buffered write. -/
def stale3 : RState := setValue stale2 0 1 8

/-- The third distinct write makes the counter 3 > 2 and triggers the
automatic flush inside setValue. -/
def stale4 : RState := setValue stale3 1 0 9

/-- Template for the concrete tiling scenario: 10000 x 10000 cells, unit
cell size, extent (0,0)-(10000,10000). -/
def tmpl10000 : Grid :=
  { width := 10000, height := 10000, extent := ⟨0, 0, 10000, 10000⟩,
    meanCellWidth := 1, meanCellHeight := 1, noDataValue := -255,
    data := fun _ _ => -255 }

/-- The concrete tiling scenario: new output over `tmpl10000`, write 7 at
(0,0) and 9 at (9999,9999). -/
def scen : RState :=
  setValue (setValue (initNew tmpl10000 (-255)) 0 0 7) 9999 9999 9

/-- New-output instance over a 4 x 4 template with one buffered write
(value 7 at (0,0)); the default blocksize 4096 keeps the flush manual. -/
def oneWrite : RState := setValue (initNew g4cells (-255)) 0 0 7

/-- Instance whose overlay holds an entry at the out-of-range row -1. -/
def oobState : RState :=
  { initNew g4cells (-255) with dict := [(-1, [(0, 3)])], dictsize := 1 }

/-- New-output instance with blocksize tuned to 1, so the auto-flush
threshold blocksize^2/2 is 0 and every write triggers a flush. -/
def autoState : RState := { initNew g4cells (-255) with blocksize := 1 }

/-- New-output instance with blocksize 2 over the 4 x 4 template: its save
produces 4 tiles, exercising the worker loop and the mosaic branch. -/
def quadState : RState := { initNew g4cells (-255) with blocksize := 2 }

/-- A disk state with an existing output file at the target path. -/
def fsOld : FS := { outfile := some g4cells, temps := [], pickle := false }

/-- Grid identical to `g4cells` except XMin = 0.00045. -/
def gRoundA : Grid := { g4cells with extent := ⟨9/20000, 0, 4, 4⟩ }

/-- Grid identical to `g4cells` except XMin = 0.00055: its XMin differs
from that of `gRoundA` by 0.0001 but crosses the half-millimetre rounding
boundary. -/
def gRoundB : Grid := { g4cells with extent := ⟨11/20000, 0, 4, 4⟩ }

/-- Grid identical to `g4cells` except XMin = 0.01. -/
def gShiftB : Grid := { g4cells with extent := ⟨1/100, 0, 4, 4⟩ }

/-- The state flushed by the automatic save inside `stale4`: `stale3` with
the write (1,0) -> 9 already stored and the counter at 3. -/
def sFlushed : RState :=
  { stale3 with dict := ovInsert stale3.dict 1 0 9, dictsize := 3 }

/-- The window array cached by the read in `stale1`: the 2 x 2 window of
`g4cells` at cell origin (0,0), exactly as the window loader built it. -/
def blockFun : Int → Int → Int :=
  rasterToNumPyArray g4cells
    (g4cells.extent.XMin + ((0 : ℤ) : ℚ) * g4cells.meanCellWidth)
    (max g4cells.extent.YMin
      (g4cells.extent.YMax - (((2 : ℕ) : ℚ) + ((0 : ℤ) : ℚ)) * g4cells.meanCellHeight))
    2 2 (-255)

/-- Well-formedness of an instance: positive cell sizes, positive grid
dimensions, a positive blocksize attribute, and a template extent consistent
with its width, height and cell sizes.  Every instance built from a real
raster satisfies this. -/
structure Consistent (s : RState) : Prop where
  cw_pos : 0 < s.rasterlike.meanCellWidth
  ch_pos : 0 < s.rasterlike.meanCellHeight
  w_pos : 0 < s.rasterlike.width
  h_pos : 0 < s.rasterlike.height
  bs_pos : 0 < s.blocksize
  x_ext : s.rasterlike.extent.XMax =
    s.rasterlike.extent.XMin + (s.rasterlike.width : ℚ) * s.rasterlike.meanCellWidth
  y_ext : s.rasterlike.extent.YMax =
    s.rasterlike.extent.YMin + (s.rasterlike.height : ℚ) * s.rasterlike.meanCellHeight

/-! Association-list and overlay lemmas. -/

theorem lookupA_insertA_self {α : Type} (l : List (Int × α)) (k : Int) (v : α) :
    lookupA (insertA l k v) k = some v := by
  induction l with
  | nil => simp [insertA, lookupA]
  | cons p t ih =>
    obtain ⟨k0, v0⟩ := p
    by_cases h : k0 = k
    · subst h; simp [insertA, lookupA]
    · simp [insertA, lookupA, h, ih]

theorem insertA_length {α : Type} [DecidableEq α] (l : List (Int × α)) (k : Int) (v : α) :
    (insertA l k v).length =
      if lookupA l k = none then l.length + 1 else l.length := by
  induction l with
  | nil => simp [insertA, lookupA]
  | cons p t ih =>
    obtain ⟨k0, v0⟩ := p
    by_cases h : k0 = k
    · subst h; simp [insertA, lookupA]
    · simp only [insertA, lookupA, if_neg h, List.length_cons, ih]
      by_cases h2 : lookupA t k = none <;> simp [h2]

theorem ovCount_cons (k : Int) (m : List (Int × Int)) (t : Overlay) :
    ovCount ((k, m) :: t) = m.length + ovCount t := rfl

theorem ovCount_insertA (d : Overlay) (k : Int) (m : List (Int × Int)) :
    ovCount (insertA d k m) + ((lookupA d k).getD []).length =
      ovCount d + m.length := by
  induction d with
  | nil => simp [insertA, lookupA, ovCount]
  | cons p t ih =>
    obtain ⟨k0, m0⟩ := p
    by_cases h : k0 = k
    · subst h
      simp [insertA, lookupA, ovCount_cons]
      omega
    · simp [insertA, lookupA, h, ovCount_cons]
      omega

theorem ovCount_ovInsert (d : Overlay) (r c v : Int) :
    ovCount (ovInsert d r c v) =
      if ovLookup d r c = none then ovCount d + 1 else ovCount d := by
  unfold ovInsert ovLookup
  by_cases h : lookupA d r = none
  · rw [h]
    have h1 := ovCount_insertA (insertA d r ([] : List (Int × Int))) r
      (insertA ([] : List (Int × Int)) c v)
    have h2 := ovCount_insertA d r ([] : List (Int × Int))
    rw [lookupA_insertA_self] at h1
    rw [h] at h2
    simp only [Option.getD_some, Option.getD_none, List.length_nil,
      Nat.add_zero] at h1 h2
    simp only [reduceIte, lookupA_insertA_self, Option.getD_some]
    simp [insertA] at h1 ⊢
    omega
  · obtain ⟨m, hm⟩ := Option.ne_none_iff_exists'.mp h
    have h1 := ovCount_insertA d r (insertA m c v)
    rw [hm] at h1
    simp only [Option.getD_some] at h1
    have h2 := insertA_length m c v
    rw [hm]
    simp only [reduceCtorEq, reduceIte]
    rw [hm]
    simp only [Option.getD_some]
    by_cases hc : lookupA m c = none
    · rw [if_pos hc] at h2
      rw [if_pos hc]
      omega
    · rw [if_neg hc] at h2
      rw [if_neg hc]
      omega

theorem ovLookup_ovInsert_self (d : Overlay) (r c v : Int) :
    ovLookup (ovInsert d r c v) r c = some v := by
  unfold ovInsert ovLookup
  by_cases h : lookupA d r = none <;>
    simp [h, lookupA_insertA_self]

/-! Characterization of the state operations. -/

/-- setValue in closed form: store via ovInsert, bump the counter on a
fresh (row, col) key, then flush and clear when the counter crosses
blocksize^2/2. -/
theorem setValue_eq (s : RState) (row col v : Int) :
    setValue s row col v =
      (if ovLookup s.dict row col = none then
        (if s.blocksize * s.blocksize / 2 < s.dictsize + 1 then
          { save { s with dict := ovInsert s.dict row col v, dictsize := s.dictsize + 1 } with
              dict := [], dictsize := 0 }
        else { s with dict := ovInsert s.dict row col v, dictsize := s.dictsize + 1 })
      else
        (if s.blocksize * s.blocksize / 2 < s.dictsize then
          { save { s with dict := ovInsert s.dict row col v, dictsize := s.dictsize } with
              dict := [], dictsize := 0 }
        else { s with dict := ovInsert s.dict row col v, dictsize := s.dictsize })) := by
  unfold setValue ovInsert ovLookup
  by_cases h : lookupA s.dict row = none
  · rw [h]
    simp only [reduceIte, lookupA_insertA_self, Option.getD_some, lookupA]
  · obtain ⟨m, hm⟩ := Option.ne_none_iff_exists'.mp h
    rw [hm]
    simp only [reduceCtorEq, reduceIte]
    rw [hm]
    simp only [Option.getD_some]
    by_cases hc : lookupA m col = none
    · simp [hc]
    · simp [hc]

/-- getValue leaves the overlay, its counter, the backing raster, and the
no-data sentinel unchanged: a read can only replace the cached window. -/
theorem getValue_preserves (s : RState) (r c : Int) :
    ((getValue s r c).2).dict = s.dict ∧
    ((getValue s r c).2).dictsize = s.dictsize ∧
    ((getValue s r c).2).raster = s.raster ∧
    ((getValue s r c).2).rasterlike = s.rasterlike ∧
    ((getValue s r c).2).blocksize = s.blocksize ∧
    ((getValue s r c).2).nodata = s.nodata := by
  unfold getValue
  split
  · exact ⟨rfl, rfl, rfl, rfl, rfl, rfl⟩
  · split
    · exact ⟨rfl, rfl, rfl, rfl, rfl, rfl⟩
    · split
      · exact ⟨rfl, rfl, rfl, rfl, rfl, rfl⟩
      · dsimp only
        split
        · exact ⟨rfl, rfl, rfl, rfl, rfl, rfl⟩
        · exact ⟨rfl, rfl, rfl, rfl, rfl, rfl⟩

/-- One operation preserves the exactness of the overlay counter. -/
theorem applyOp_dictsize (s : RState) (h : s.dictsize = ovCount s.dict)
    (op : ROp) : (applyOp s op).dictsize = ovCount (applyOp s op).dict := by
  cases op with
  | rget r c =>
    have hp := getValue_preserves s r c
    simp only [applyOp, hp.1, hp.2.1, h]
  | rset r c v =>
    simp only [applyOp, setValue_eq]
    by_cases hn : ovLookup s.dict r c = none
    · rw [if_pos hn]
      by_cases ht : s.blocksize * s.blocksize / 2 < s.dictsize + 1
      · rw [if_pos ht]
        rfl
      · rw [if_neg ht]
        simp [h, ovCount_ovInsert, hn]
    · rw [if_neg hn]
      by_cases ht : s.blocksize * s.blocksize / 2 < s.dictsize
      · rw [if_pos ht]
        rfl
      · rw [if_neg ht]
        simp [h, ovCount_ovInsert, hn]
  | rsave => exact h

/-- A whole run of operations preserves the exactness of the counter. -/
theorem runOps_dictsize (ops : List ROp) :
    ∀ s : RState, s.dictsize = ovCount s.dict →
      (runOps s ops).dictsize = ovCount (runOps s ops).dict := by
  induction ops with
  | nil => intro s h; exact h
  | cons op ops ih =>
    intro s h
    exact ih (applyOp s op) (applyOp_dictsize s h op)

/-- Claim C10: the overlay size counter `dictsize` is exact.  After every
sequence of getValue / setValue / save operations on an instance created by
either constructor, it equals precisely the number of distinct (row, col)
pairs stored in the overlay dictionary: setValue increments it only on
first insertion of a key, overwrites leave it unchanged, and it is reset to
0 exactly when the dictionary is reset to empty. -/
theorem dictsize_exact (tmpl g : Grid) (dflt : Int) :
    (∀ ops : List ROp,
      (runOps (initNew tmpl dflt) ops).dictsize =
        ovCount (runOps (initNew tmpl dflt) ops).dict) ∧
    (∀ ops : List ROp,
      (runOps (initExisting g) ops).dictsize =
        ovCount (runOps (initExisting g) ops).dict) := by
  constructor
  · intro ops
    exact runOps_dictsize ops (initNew tmpl dflt) rfl
  · intro ops
    exact runOps_dictsize ops (initExisting g) rfl

/-- Claim C4: setValue triggers the internal flush exactly when the updated
distinct-key counter exceeds blocksize^2/2 (the counter grows by one only
when (row, col) is a fresh key); after the auto-flush both the overlay and
the counter are reset to 0, and the backing raster becomes the flushed
output; without a trigger the overlay simply grows and the backing raster
is unchanged.  Consequently, as long as the counter respects the threshold
before the call (which every reachable state does), it still respects it
after, so the counter can never exceed blocksize^2/2 between flushes. -/
theorem setValue_flush_trigger (s : RState) (row col v : Int)
    (hinv : s.dictsize ≤ s.blocksize * s.blocksize / 2) :
    (s.blocksize * s.blocksize / 2 <
        (if ovLookup s.dict row col = none then s.dictsize + 1 else s.dictsize) →
      (setValue s row col v).dict = [] ∧ (setValue s row col v).dictsize = 0 ∧
      (setValue s row col v).raster =
        some (saveOutput
          { s with dict := ovInsert s.dict row col v, dictsize := s.dictsize + 1 })) ∧
    (¬ s.blocksize * s.blocksize / 2 <
        (if ovLookup s.dict row col = none then s.dictsize + 1 else s.dictsize) →
      (setValue s row col v).dict = ovInsert s.dict row col v ∧
      (setValue s row col v).dictsize =
        (if ovLookup s.dict row col = none then s.dictsize + 1 else s.dictsize) ∧
      (setValue s row col v).raster = s.raster) ∧
    (setValue s row col v).dictsize ≤ s.blocksize * s.blocksize / 2 := by
  rw [setValue_eq]
  by_cases hn : ovLookup s.dict row col = none
  · rw [if_pos hn]
    simp only [hn, eq_self_iff_true, if_true]
    by_cases ht : s.blocksize * s.blocksize / 2 < s.dictsize + 1
    · rw [if_pos ht]
      refine ⟨fun _ => ⟨rfl, rfl, rfl⟩, fun hcon => absurd ht hcon, ?_⟩
      exact Nat.zero_le _
    · rw [if_neg ht]
      refine ⟨fun hcon => absurd hcon ht, fun _ => ⟨rfl, rfl, rfl⟩, ?_⟩
      show s.dictsize + 1 ≤ s.blocksize * s.blocksize / 2
      omega
  · rw [if_neg hn]
    simp only [hn, if_false]
    have ht : ¬ s.blocksize * s.blocksize / 2 < s.dictsize := by omega
    rw [if_neg ht]
    refine ⟨fun hcon => absurd hcon ht, fun _ => ⟨rfl, rfl, rfl⟩, ?_⟩
    show s.dictsize ≤ s.blocksize * s.blocksize / 2
    omega

/-- Witness for C4 on a concrete instance: with blocksize 1 the threshold
is 0, so the very first write triggers the flush and resets overlay and
counter. -/
theorem setValue_flush_trigger_witness :
    (setValue autoState 0 0 5).dict = [] ∧
    (setValue autoState 0 0 5).dictsize = 0 := by
  have h := setValue_flush_trigger autoState 0 0 5 (by decide)
  have h1 := h.1 (by decide)
  exact ⟨h1.1, h1.2.1⟩

/-- Claim C3: for every (row, col) outside [0,width) x [0,height), getValue
returns the configured no-data sentinel, whatever the overlay and window
state: the bounds check is the first thing getValue does. -/
theorem getValue_out_of_range (s : RState) (row col : Int)
    (h : row < 0 ∨ col < 0 ∨ row ≥ s.rasterlike.height ∨ col ≥ s.rasterlike.width) :
    (getValue s row col).1 = s.nodata := by
  unfold getValue
  rw [if_pos h]

/-- Witness for C3 at a concrete input: the instance `oobState` has an
overlay entry at row -1, and reading that out-of-range cell still yields
the sentinel -255, not the overlay value 3. -/
theorem getValue_out_of_range_witness : (getValue oobState (-1) 0).1 = -255 :=
  getValue_out_of_range oobState (-1) 0 (Or.inl (by decide))

/-- The floor of an integer plus one half is that integer. -/
theorem floor_int_add_half (n : Int) : ⌊((n : ℚ) + 1/2)⌋ = n := by
  rw [Int.floor_int_add]
  norm_num

/-- Claim C9: the coordinate conversions are exact inverses up to
cell-center rounding: XtoCol inverts ColtoX and YtoRow inverts RowtoY on
every integer cell index, given positive cell sizes and an extent
consistent with the grid height. -/
theorem coord_roundtrip (g : Grid) (col row : Int)
    (hcw : 0 < g.meanCellWidth) (hch : 0 < g.meanCellHeight)
    (hyext : g.extent.YMax = g.extent.YMin + (g.height : ℚ) * g.meanCellHeight) :
    XtoCol g (ColtoX g col) = col ∧ YtoRow g (RowtoY g row) = row := by
  constructor
  · unfold XtoCol ColtoX
    have h1 : (g.extent.XMin + ((col : ℚ) + 1/2) * g.meanCellWidth - g.extent.XMin) /
        g.meanCellWidth = (col : ℚ) + 1/2 := by
      field_simp
      ring
    rw [h1, floor_int_add_half]
  · unfold YtoRow RowtoY
    have h1 : (g.extent.YMax - ((row : ℚ) + 1/2) * g.meanCellHeight - g.extent.YMin) /
        g.meanCellHeight = ((g.height - row - 1 : Int) : ℚ) + 1/2 := by
      rw [hyext]
      push_cast
      field_simp
      ring
    rw [h1, floor_int_add_half]
    omega

/-- Witness for C9 at a concrete input: on the 4 x 4 unit grid, column 2
and row 3 round-trip through the coordinate conversions. -/
theorem coord_roundtrip_witness :
    XtoCol g4cells (ColtoX g4cells 2) = 2 ∧ YtoRow g4cells (RowtoY g4cells 3) = 3 :=
  coord_roundtrip g4cells 2 3 (by norm_num [g4cells]) (by norm_num [g4cells])
    (by norm_num [g4cells])

/-- Python 2 rounding moves a rational by at most one half. -/
theorem abs_pyround_sub (q : ℚ) : |(pyround q : ℚ) - q| ≤ 1/2 := by
  unfold pyround
  by_cases h : q < 0
  · rw [if_pos h]
    have h1 := Int.floor_le (-q + 1/2)
    have h2 := Int.sub_one_lt_floor (-q + 1/2)
    rw [abs_le]
    push_cast
    constructor <;> linarith
  · rw [if_neg h]
    have h1 := Int.floor_le (q + 1/2)
    have h2 := Int.sub_one_lt_floor (q + 1/2)
    rw [abs_le]
    constructor <;> linarith

/-- Claim C7 (amended): checkMatch raises exactly when the two rasters
differ in width, in height, or in one of the four extent bounds rounded to
3 decimal places; any two rasters whose XMin differ by 0.01 always raise.
(A difference of 0.0001 does not raise only when both values round to the
same 3-decimal value; see the counterexample for a 0.0001 pair that does
raise.) -/
theorem checkMatch_descriptor (a b : Grid) :
    (checkMatchRaises a b = false ↔
      (round3 a.extent.XMin = round3 b.extent.XMin ∧
       round3 a.extent.YMin = round3 b.extent.YMin ∧
       round3 a.extent.XMax = round3 b.extent.XMax ∧
       round3 a.extent.YMax = round3 b.extent.YMax ∧
       a.height = b.height ∧ a.width = b.width)) ∧
    (|a.extent.XMin - b.extent.XMin| = 1/100 → checkMatchRaises a b = true) := by
  constructor
  · unfold checkMatchRaises
    simp only [decide_eq_false_iff_not]
    push_neg
    tauto
  · intro h
    unfold checkMatchRaises
    rw [decide_eq_true_eq]
    left
    intro heq
    unfold round3 at heq
    have hq : (pyround (a.extent.XMin * 1000) : ℚ) =
        (pyround (b.extent.XMin * 1000) : ℚ) := by
      field_simp at heq
      exact_mod_cast heq
    have h1 := abs_pyround_sub (a.extent.XMin * 1000)
    have h2 := abs_pyround_sub (b.extent.XMin * 1000)
    have h3 : |a.extent.XMin * 1000 - b.extent.XMin * 1000| = 10 := by
      rw [show a.extent.XMin * 1000 - b.extent.XMin * 1000 =
        (a.extent.XMin - b.extent.XMin) * 1000 from by ring]
      rw [abs_mul, h]
      norm_num
    rw [abs_le] at h1 h2
    rw [abs_eq (by norm_num : (0:ℚ) ≤ 10)] at h3
    rw [hq] at h1
    rcases h3 with h3 | h3 <;> linarith

/-- Counterexample to C7 as stated: `gRoundA` and `gRoundB` have identical
size and their XMin values differ by exactly 0.0001, yet checkMatch raises,
because 0.00045 rounds to 0.000 while 0.00055 rounds to 0.001. -/
theorem checkMatch_small_shift_raises :
    gRoundB.extent.XMin - gRoundA.extent.XMin = 1/10000 ∧
    checkMatchRaises gRoundA gRoundB = true := by
  constructor
  · norm_num [gRoundA, gRoundB, g4cells]
  · unfold checkMatchRaises
    rw [decide_eq_true_eq]
    left
    show round3 gRoundA.extent.XMin ≠ round3 gRoundB.extent.XMin
    norm_num [gRoundA, gRoundB, g4cells, round3, pyround]

/-- Witness for C7 at a concrete input: an XMin shift of 0.01 raises. -/
theorem checkMatch_witness : checkMatchRaises g4cells gShiftB = true := by
  apply (checkMatch_descriptor g4cells gShiftB).2
  rw [abs_sub_comm]
  norm_num [g4cells, gShiftB]

/-- If some tile worker in the remaining list fails, the worker loop raises,
and the output path is untouched (the loop only appends temporary files). -/
theorem workerLoop_fail (ok : Nat → Bool) :
    ∀ (ts : List Grid) (k : Nat) (fs : FS),
      (∃ i, i < ts.length ∧ ok (k + i) = false) →
      ∃ fsE, workerLoop ok ts k fs = .error fsE ∧ fsE.outfile = fs.outfile := by
  intro ts
  induction ts with
  | nil =>
    intro k fs h
    obtain ⟨i, hi, _⟩ := h
    simp at hi
  | cons t ts ih =>
    intro k fs h
    obtain ⟨i, hi, hfail⟩ := h
    by_cases hk : ok k = true
    · unfold workerLoop
      rw [if_pos hk]
      cases i with
      | zero =>
        rw [Nat.add_zero] at hfail
        rw [hfail] at hk
        cases hk
      | succ j =>
        have hj : j < ts.length := by simpa using hi
        have hfj : ok (k + 1 + j) = false := by
          rw [show k + 1 + j = k + (j + 1) from by omega]
          exact hfail
        exact ih (k + 1) { fs with temps := fs.temps ++ [t] } ⟨j, hj, hfj⟩
    · refine ⟨fs, ?_, rfl⟩
      unfold workerLoop
      rw [if_neg hk]

/-- Claim C5: if any tile worker invocation fails during save, the failure
propagates to the caller as a raised error with no retry, and the previous
output file at the target path is untouched, because the old output is
deleted only after the whole worker loop has completed successfully. -/
theorem save_worker_failure (s : RState) (ok : Nat → Bool) (mOk : Bool)
    (fs0 : FS) (hfail : ∃ i, i < (saveTiles s).length ∧ ok i = false) :
    ∃ fsE, saveRun ok mOk s fs0 = .error fsE ∧ fsE.outfile = fs0.outfile := by
  obtain ⟨fsE, he, ho⟩ :=
    workerLoop_fail ok (saveTiles s) 0 { fs0 with pickle := true }
      (by simpa using hfail)
  refine ⟨fsE, ?_, ho⟩
  unfold saveRun
  dsimp only
  rw [he]

/-- Witness for C5 at a concrete input: on the four-tile instance
`quadState` with every worker failing, save raises and the previous output
file at the target path is still `g4cells`. -/
theorem save_worker_failure_witness :
    ∃ fsE, saveRun (fun _ => false) true quadState fsOld = .error fsE ∧
      fsE.outfile = some g4cells :=
  save_worker_failure quadState (fun _ => false) true fsOld
    ⟨0, by decide, rfl⟩

/-- When every worker succeeds the loop returns with all tiles appended to
the temporary-file list. -/
theorem workerLoop_all_ok (ok : Nat → Bool) :
    ∀ (ts : List Grid) (k : Nat) (fs : FS), (∀ i, ok i = true) →
      workerLoop ok ts k fs = .ok { fs with temps := fs.temps ++ ts } := by
  intro ts
  induction ts with
  | nil =>
    intro k fs _
    simp [workerLoop]
  | cons t ts ih =>
    intro k fs h
    unfold workerLoop
    rw [if_pos (h k)]
    rw [ih (k + 1) { fs with temps := fs.temps ++ [t] } h]
    simp

/-- Claim C8 (amended): when all tile workers succeed, the handoff artifact
is removed right after the worker loop, so it is gone whether or not the
mosaic step succeeds; the temporary tile files, however, are deleted only
on the success path of the mosaic (or single-tile copy) step — if that step
raises, the error propagates with every temporary tile file still on disk
(and the previous output already deleted). -/
theorem save_cleanup (s : RState) (ok : Nat → Bool) (mOk : Bool) (fs0 : FS)
    (hok : ∀ i, ok i = true) :
    (mOk = true →
      saveRun ok mOk s fs0 =
        .ok (save s,
          { outfile := some (saveOutput s), temps := [], pickle := false })) ∧
    (mOk = false →
      ∃ fsE, saveRun ok mOk s fs0 = .error fsE ∧ fsE.pickle = false ∧
        fsE.temps = fs0.temps ++ saveTiles s ∧ fsE.outfile = none) := by
  have hw := workerLoop_all_ok ok (saveTiles s) 0 { fs0 with pickle := true } hok
  constructor
  · intro hm
    unfold saveRun
    dsimp only
    rw [hw, hm]
    rfl
  · intro hm
    unfold saveRun
    dsimp only
    rw [hw, hm]
    exact ⟨_, rfl, rfl, rfl, rfl⟩

/-- Counterexample to C8 as stated: on the four-tile instance `quadState`,
when every worker succeeds but the mosaic step raises, save propagates the
error while all 4 temporary tile files are still on disk — the cleanup loop
runs only after a successful mosaic. -/
theorem save_mosaic_failure_keeps_temps :
    errTempsCount (saveRun (fun _ => true) false quadState fsOld) = 4 := by
  rfl

/-- Witness for C8 at a concrete input: on `quadState` with all collaborators
succeeding, save returns normally with no temporary tile file and no handoff
artifact left on disk. -/
theorem save_cleanup_witness :
    saveRun (fun _ => true) true quadState fsOld =
      .ok (save quadState,
        { outfile := some (saveOutput quadState), temps := [], pickle := false }) :=
  (save_cleanup quadState (fun _ => true) true fsOld (fun _ => rfl)).1 rfl

/-! Range, tiling and mosaic lemmas. -/

/-- Counting lemma for the ceiling division used by the tiling loops:
membership of i in the Python range of the loop is equivalent to the tile
origin i * step lying inside the grid. -/
theorem lt_ceilDiv_iff {n : Int} {step : Nat} (hstep : 0 < step) (i : Nat) :
    i < (n.toNat + step - 1) / step ↔ (i : Int) * (step : Int) < n := by
  have hcast : ((i * step : Nat) : Int) = (i : Int) * (step : Int) := by push_cast; ring
  rw [← hcast, ← Int.lt_toNat]
  constructor
  · intro h
    have h2 : (i + 1) * step ≤ n.toNat + step - 1 :=
      (Nat.le_div_iff_mul_le hstep).mp h
    rw [add_one_mul] at h2
    revert h2
    generalize i * step = m
    intro h2
    omega
  · intro h
    have hgoal : (i + 1) * step ≤ n.toNat + step - 1 := by
      rw [add_one_mul]
      revert h
      generalize i * step = m
      intro h
      omega
    exact (Nat.le_div_iff_mul_le hstep).mpr hgoal

/-- Membership in the loop range: x is produced by range(0, stop, step)
exactly when x is a nonnegative multiple of step below stop. -/
theorem mem_pyRange0 {stop : Int} {step : Nat} (hstep : 0 < step) {x : Int} :
    x ∈ pyRange0 stop step ↔
      ∃ i : Nat, x = (i : Int) * (step : Int) ∧ (i : Int) * (step : Int) < stop := by
  unfold pyRange0
  simp only [List.mem_map, List.mem_range]
  constructor
  · rintro ⟨i, hi, rfl⟩
    exact ⟨i, by push_cast; ring, (lt_ceilDiv_iff hstep i).mp hi⟩
  · rintro ⟨i, hx, hlt⟩
    exact ⟨i, (lt_ceilDiv_iff hstep i).mpr hlt, by rw [hx]; push_cast; ring⟩

/-- Length of the loop range is the ceiling of stop / step. -/
theorem length_pyRange0 (stop : Int) (step : Nat) :
    (pyRange0 stop step).length = (stop.toNat + step - 1) / step := by
  unfold pyRange0
  simp

/-- Length of a flat map whose inner lists all have the same length. -/
theorem length_flatMap_const {α β : Type} (xs : List α) (f : α → List β) (k : Nat)
    (h : ∀ x ∈ xs, (f x).length = k) :
    (xs.flatMap f).length = xs.length * k := by
  induction xs with
  | nil => simp
  | cons a xs ih =>
    rw [List.flatMap_cons, List.length_append, h a (by simp),
      ih fun x hx => h x (by simp [hx]), List.length_cons, add_one_mul,
      Nat.add_comm]

/-- save produces one tile per loop iteration:
ceil(width / blocksize) * ceil(height / blocksize) tiles in total. -/
theorem length_saveTiles (s : RState) :
    (saveTiles s).length =
      ((s.rasterlike.width.toNat + s.blocksize - 1) / s.blocksize) *
      ((s.rasterlike.height.toNat + s.blocksize - 1) / s.blocksize) := by
  unfold saveTiles
  rw [length_flatMap_const _ _
    ((s.rasterlike.height.toNat + s.blocksize - 1) / s.blocksize)
    (fun x _ => by rw [List.length_map, length_pyRange0]), length_pyRange0]

/-- Tile membership: the tiles of save are exactly the worker results for
the loop origins. -/
theorem mem_saveTiles {s : RState} {t : Grid} :
    t ∈ saveTiles s ↔
      ∃ x ∈ pyRange0 s.rasterlike.width s.blocksize,
        ∃ y ∈ pyRange0 s.rasterlike.height s.blocksize,
          t = tileWorker s.rasterlike s.raster x y s.blocksize s.nodata s.dict := by
  unfold saveTiles
  simp only [List.mem_flatMap, List.mem_map]
  constructor
  · rintro ⟨x, hx, y, hy, rfl⟩
    exact ⟨x, hx, y, hy, rfl⟩
  · rintro ⟨x, hx, y, hy, rfl⟩
    exact ⟨x, hx, y, hy, rfl⟩

/-- An integer is at most another exactly when its cast stays below the
half-cell offset of the other. -/
theorem half_le_iff {x c : Int} : (x : ℚ) ≤ (c : ℚ) + 1/2 ↔ x ≤ c := by
  constructor
  · intro h
    have h2 : (x : ℚ) < (c : ℚ) + 1 := by linarith
    have h3 : x < c + 1 := by exact_mod_cast h2
    omega
  · intro h
    have h2 : (x : ℚ) ≤ (c : ℚ) := by exact_mod_cast h
    linarith

/-- Strict version of `half_le_iff`. -/
theorem half_lt_iff {c l : Int} : (c : ℚ) + 1/2 < (l : ℚ) ↔ c < l := by
  constructor
  · intro h
    have h2 : (c : ℚ) < (l : ℚ) := by linarith
    exact_mod_cast h2
  · intro h
    have h2 : ((c + 1 : Int) : ℚ) ≤ (l : ℚ) := by exact_mod_cast h
    push_cast at h2
    linarith

/-- Width of a worker tile: clipped to the grid boundary, not padded. -/
theorem tileWorker_width (rl : Grid) (raster : Option Grid) (x y : Int)
    (bs : Nat) (nd : Int) (d : Overlay) :
    (tileWorker rl raster x y bs nd d).width =
      min (x + (bs : Int)) rl.width - x := rfl

/-- Height of a worker tile: clipped to the grid boundary, not padded. -/
theorem tileWorker_height (rl : Grid) (raster : Option Grid) (x y : Int)
    (bs : Nat) (nd : Int) (d : Overlay) :
    (tileWorker rl raster x y bs nd d).height =
      min (y + (bs : Int)) rl.height - y := rfl

/-- Left map bound of a worker tile. -/
theorem tileWorker_XMin (rl : Grid) (raster : Option Grid) (x y : Int)
    (bs : Nat) (nd : Int) (d : Overlay) :
    (tileWorker rl raster x y bs nd d).extent.XMin =
      rl.extent.XMin + (x : ℚ) * rl.meanCellWidth := rfl

/-- Right map bound of a worker tile. -/
theorem tileWorker_XMax (rl : Grid) (raster : Option Grid) (x y : Int)
    (bs : Nat) (nd : Int) (d : Overlay) :
    (tileWorker rl raster x y bs nd d).extent.XMax =
      rl.extent.XMin + ((min (x + (bs : Int)) rl.width : Int) : ℚ) * rl.meanCellWidth := by
  show rl.extent.XMin + (x : ℚ) * rl.meanCellWidth +
      ((min (x + (bs : Int)) rl.width - x : Int) : ℚ) * rl.meanCellWidth = _
  push_cast
  ring

/-- The map-unit lower bound used for a tile window equals the bound of the
clipped tile, whenever the template extent is consistent. -/
theorem tile_my_eq (rl : Grid) (y : Int) (bs : Nat)
    (hch : 0 < rl.meanCellHeight)
    (hyext : rl.extent.YMax = rl.extent.YMin + (rl.height : ℚ) * rl.meanCellHeight) :
    max rl.extent.YMin (rl.extent.YMax - ((bs : ℚ) + (y : ℚ)) * rl.meanCellHeight) =
      rl.extent.YMax - ((min (y + (bs : Int)) rl.height : Int) : ℚ) * rl.meanCellHeight := by
  rcases le_total (y + (bs : Int)) rl.height with hle | hge
  · rw [min_eq_left hle, max_eq_right]
    · push_cast
      ring
    · rw [hyext]
      have h2 : ((y + (bs : Int) : Int) : ℚ) ≤ (rl.height : ℚ) := by exact_mod_cast hle
      push_cast at h2
      nlinarith [hch]
  · rw [min_eq_right hge, max_eq_left]
    · rw [hyext]
      ring
    · rw [hyext]
      have h2 : (rl.height : ℚ) ≤ ((y + (bs : Int) : Int) : ℚ) := by exact_mod_cast hge
      push_cast at h2
      nlinarith [hch]

/-- Bottom map bound of a worker tile. -/
theorem tileWorker_YMin (rl : Grid) (raster : Option Grid) (x y : Int)
    (bs : Nat) (nd : Int) (d : Overlay)
    (hch : 0 < rl.meanCellHeight)
    (hyext : rl.extent.YMax = rl.extent.YMin + (rl.height : ℚ) * rl.meanCellHeight) :
    (tileWorker rl raster x y bs nd d).extent.YMin =
      rl.extent.YMax - ((min (y + (bs : Int)) rl.height : Int) : ℚ) * rl.meanCellHeight :=
  tile_my_eq rl y bs hch hyext

/-- Top map bound of a worker tile. -/
theorem tileWorker_YMax (rl : Grid) (raster : Option Grid) (x y : Int)
    (bs : Nat) (nd : Int) (d : Overlay)
    (hch : 0 < rl.meanCellHeight)
    (hyext : rl.extent.YMax = rl.extent.YMin + (rl.height : ℚ) * rl.meanCellHeight) :
    (tileWorker rl raster x y bs nd d).extent.YMax =
      rl.extent.YMax - (y : ℚ) * rl.meanCellHeight := by
  show max rl.extent.YMin (rl.extent.YMax - ((bs : ℚ) + (y : ℚ)) * rl.meanCellHeight) +
      ((min (y + (bs : Int)) rl.height - y : Int) : ℚ) * rl.meanCellHeight = _
  rw [tile_my_eq rl y bs hch hyext]
  push_cast
  ring

/-- A worker tile contains the center of cell (r, c) exactly when (r, c)
lies inside the clipped tile bounds. -/
theorem contains_tile_iff (rl : Grid) (raster : Option Grid) (x y r c : Int)
    (bs : Nat) (nd : Int) (d : Overlay)
    (hcw : 0 < rl.meanCellWidth) (hch : 0 < rl.meanCellHeight)
    (hyext : rl.extent.YMax = rl.extent.YMin + (rl.height : ℚ) * rl.meanCellHeight) :
    containsPointB (tileWorker rl raster x y bs nd d)
        (rl.extent.XMin + ((c : ℚ) + 1/2) * rl.meanCellWidth)
        (rl.extent.YMax - ((r : ℚ) + 1/2) * rl.meanCellHeight) = true ↔
      (x ≤ c ∧ c < min (x + (bs : Int)) rl.width ∧
       y ≤ r ∧ r < min (y + (bs : Int)) rl.height) := by
  unfold containsPointB
  rw [decide_eq_true_eq]
  rw [tileWorker_XMin, tileWorker_XMax, tileWorker_YMin rl raster x y bs nd d hch hyext,
    tileWorker_YMax rl raster x y bs nd d hch hyext]
  have e1 : rl.extent.XMin + (x : ℚ) * rl.meanCellWidth ≤
      rl.extent.XMin + ((c : ℚ) + 1/2) * rl.meanCellWidth ↔ x ≤ c := by
    rw [add_le_add_iff_left, mul_le_mul_right hcw, half_le_iff]
  have e2 : rl.extent.XMin + ((c : ℚ) + 1/2) * rl.meanCellWidth <
      rl.extent.XMin + ((min (x + (bs : Int)) rl.width : Int) : ℚ) * rl.meanCellWidth ↔
      c < min (x + (bs : Int)) rl.width := by
    rw [add_lt_add_iff_left, mul_lt_mul_right hcw, half_lt_iff]
  have e3 : rl.extent.YMax - ((min (y + (bs : Int)) rl.height : Int) : ℚ) * rl.meanCellHeight <
      rl.extent.YMax - ((r : ℚ) + 1/2) * rl.meanCellHeight ↔
      r < min (y + (bs : Int)) rl.height := by
    rw [sub_lt_sub_iff_left, mul_lt_mul_right hch, half_lt_iff]
  have e4 : rl.extent.YMax - ((r : ℚ) + 1/2) * rl.meanCellHeight ≤
      rl.extent.YMax - (y : ℚ) * rl.meanCellHeight ↔ y ≤ r := by
    rw [sub_le_sub_iff_left, mul_le_mul_right hch, half_le_iff]
  rw [e1, e2, e3, e4]
  tauto

/-- The worker writes every overlay entry that falls inside its tile: the
tile array holds the overlay value at the corresponding local index. -/
theorem tile_data_value (rl : Grid) (raster : Option Grid) (bs : Nat)
    (nd : Int) (d : Overlay) (x y r c v : Int)
    (hxc : x ≤ c) (hclx : c < min (x + (bs : Int)) rl.width)
    (hyr : y ≤ r) (hrly : r < min (y + (bs : Int)) rl.height)
    (hov : ovLookup d r c = some v) :
    (tileWorker rl raster x y bs nd d).data (r - y) (c - x) = v := by
  unfold tileWorker numPyArrayToRaster
  dsimp only
  rw [show y + (r - y) = r from by ring, show x + (c - x) = c from by ring, hov]
  dsimp only
  rw [if_pos ⟨hrly, hyr, hclx, hxc⟩]

/-- Folding a pick-if function: when some list element satisfies the
predicate and every satisfying element yields the same value, the fold
returns that value (auxiliary form first: the fold either returns the value
or leaves the accumulator). -/
theorem foldl_if_aux {α : Type} (p : α → Bool) (g : α → Int) (v : Int) :
    ∀ (L : List α) (a : Int), (∀ t ∈ L, p t = true → g t = v) →
      (L.foldl (fun acc t => if p t = true then g t else acc) a = v ∨
       L.foldl (fun acc t => if p t = true then g t else acc) a = a) := by
  intro L
  induction L with
  | nil => intro a _; right; rfl
  | cons t ts ih =>
    intro a h
    simp only [List.foldl_cons]
    by_cases hp : p t = true
    · rw [if_pos hp, h t (by simp) hp]
      rcases ih v (fun u hu hpu => h u (by simp [hu]) hpu) with h1 | h1
      · left; exact h1
      · left; rw [h1]
    · rw [if_neg hp]
      exact ih a fun u hu hpu => h u (by simp [hu]) hpu

/-- Folding a pick-if function with a witness in the list returns the
common value of the satisfying elements. -/
theorem foldl_if_eq {α : Type} (p : α → Bool) (g : α → Int) (v : Int) :
    ∀ (L : List α) (a : Int), (∀ t ∈ L, p t = true → g t = v) →
      (∃ t ∈ L, p t = true) →
      L.foldl (fun acc t => if p t = true then g t else acc) a = v := by
  intro L
  induction L with
  | nil =>
    intro a _ hex
    obtain ⟨t, ht, _⟩ := hex
    simp at ht
  | cons t ts ih =>
    intro a h hex
    simp only [List.foldl_cons]
    by_cases hp : p t = true
    · rw [if_pos hp, h t (by simp) hp]
      rcases foldl_if_aux p g v ts v (fun u hu hpu => h u (by simp [hu]) hpu) with h1 | h1
      · exact h1
      · exact h1
    · rw [if_neg hp]
      obtain ⟨u, hu, hpu⟩ := hex
      rcases List.mem_cons.mp hu with rfl | hu2
      · exact absurd hpu hp
      · exact ih a (fun w hw hpw => h w (by simp [hw]) hpw) ⟨u, hu2, hpu⟩

/-- A fold of pairwise minima equals the lower bound b when b bounds the
initial value and every element, and is attained. -/
theorem foldl_min_eq (f : Grid → ℚ) (b : ℚ) :
    ∀ (L : List Grid) (a : ℚ), (∀ t ∈ L, b ≤ f t) → b ≤ a →
      (a = b ∨ ∃ t ∈ L, f t = b) →
      L.foldl (fun m t => min m (f t)) a = b := by
  intro L
  induction L with
  | nil =>
    intro a _ _ hex
    rcases hex with h | ⟨t, ht, _⟩
    · exact h
    · simp at ht
  | cons t ts ih =>
    intro a hall hba hex
    simp only [List.foldl_cons]
    apply ih
    · intro u hu
      exact hall u (by simp [hu])
    · exact le_min hba (hall t (by simp))
    · rcases hex with h | ⟨u, hu, hfu⟩
      · left
        rw [h]
        exact min_eq_left (hall t (by simp))
      · rcases List.mem_cons.mp hu with rfl | hu2
        · left
          rw [hfu]
          exact min_eq_right hba
        · right
          exact ⟨u, hu2, hfu⟩

/-- A fold of pairwise maxima equals the upper bound b when b bounds the
initial value and every element, and is attained. -/
theorem foldl_max_eq (f : Grid → ℚ) (b : ℚ) :
    ∀ (L : List Grid) (a : ℚ), (∀ t ∈ L, f t ≤ b) → a ≤ b →
      (a = b ∨ ∃ t ∈ L, f t = b) →
      L.foldl (fun m t => max m (f t)) a = b := by
  intro L
  induction L with
  | nil =>
    intro a _ _ hex
    rcases hex with h | ⟨t, ht, _⟩
    · exact h
    · simp at ht
  | cons t ts ih =>
    intro a hall hba hex
    simp only [List.foldl_cons]
    apply ih
    · intro u hu
      exact hall u (by simp [hu])
    · exact max_le hba (hall t (by simp))
    · rcases hex with h | ⟨u, hu, hfu⟩
      · left
        rw [h]
        exact max_eq_left (hall t (by simp))
      · rcases List.mem_cons.mp hu with rfl | hu2
        · left
          rw [hfu]
          exact max_eq_right hba
        · right
          exact ⟨u, hu2, hfu⟩

/-- Extent equality from component equalities. -/
theorem extent_ext {a b : Extent} (h1 : a.XMin = b.XMin) (h2 : a.YMin = b.YMin)
    (h3 : a.XMax = b.XMax) (h4 : a.YMax = b.YMax) : a = b := by
  cases a; cases b; simp_all

/-- Every tile extent lies inside the template extent. -/
theorem tile_extent_bounds (s : RState) (hc : Consistent s) {t : Grid}
    (ht : t ∈ saveTiles s) :
    s.rasterlike.extent.XMin ≤ t.extent.XMin ∧
    t.extent.XMax ≤ s.rasterlike.extent.XMax ∧
    s.rasterlike.extent.YMin ≤ t.extent.YMin ∧
    t.extent.YMax ≤ s.rasterlike.extent.YMax := by
  obtain ⟨x, hx, y, hy, rfl⟩ := mem_saveTiles.mp ht
  obtain ⟨i, hxi, _⟩ := (mem_pyRange0 hc.bs_pos).mp hx
  obtain ⟨j, hyj, _⟩ := (mem_pyRange0 hc.bs_pos).mp hy
  have hx0 : (0 : ℚ) ≤ (x : ℚ) := by rw [hxi]; push_cast; positivity
  have hy0 : (0 : ℚ) ≤ (y : ℚ) := by rw [hyj]; push_cast; positivity
  refine ⟨?_, ?_, ?_, ?_⟩
  · rw [tileWorker_XMin]
    have h1 : (0 : ℚ) ≤ (x : ℚ) * s.rasterlike.meanCellWidth :=
      mul_nonneg hx0 hc.cw_pos.le
    linarith
  · rw [tileWorker_XMax, hc.x_ext]
    have h1 : ((min (x + (s.blocksize : Int)) s.rasterlike.width : Int) : ℚ) ≤
        (s.rasterlike.width : ℚ) := by
      exact_mod_cast min_le_right (x + (s.blocksize : Int)) s.rasterlike.width
    have h2 := mul_le_mul_of_nonneg_right h1 hc.cw_pos.le
    linarith
  · rw [tileWorker_YMin _ _ _ _ _ _ _ hc.ch_pos hc.y_ext, hc.y_ext]
    have h1 : ((min (y + (s.blocksize : Int)) s.rasterlike.height : Int) : ℚ) ≤
        (s.rasterlike.height : ℚ) := by
      exact_mod_cast min_le_right (y + (s.blocksize : Int)) s.rasterlike.height
    have h2 := mul_le_mul_of_nonneg_right h1 hc.ch_pos.le
    linarith
  · rw [tileWorker_YMax _ _ _ _ _ _ _ hc.ch_pos hc.y_ext]
    have h1 : (0 : ℚ) ≤ (y : ℚ) * s.rasterlike.meanCellHeight :=
      mul_nonneg hy0 hc.ch_pos.le
    linarith

/-- Zero is always the first loop origin on a nonempty axis. -/
theorem pyRange0_zero_mem {stop : Int} {step : Nat} (hstep : 0 < step)
    (hstop : 0 < stop) : (0 : Int) ∈ pyRange0 stop step :=
  (mem_pyRange0 hstep).mpr ⟨0, by simp, by simpa⟩

/-- The last loop origin on a nonempty axis: it lies in the range, and its
tile reaches the end of the axis. -/
theorem pyRange0_last_mem {stop : Int} {step : Nat} (hstep : 0 < step)
    (hstop : 0 < stop) :
    ((((stop.toNat + step - 1) / step - 1 : ℕ) : ℤ) * (step : ℤ) ∈ pyRange0 stop step) ∧
    stop ≤ (((stop.toNat + step - 1) / step - 1 : ℕ) : ℤ) * (step : ℤ) + (step : ℤ) := by
  have hq1 : 0 < (stop.toNat + step - 1) / step := by
    have h := (lt_ceilDiv_iff hstep 0).mpr (by simpa using hstop)
    omega
  constructor
  · exact (mem_pyRange0 hstep).mpr
      ⟨(stop.toNat + step - 1) / step - 1, rfl,
        (lt_ceilDiv_iff hstep _).mp (by omega)⟩
  · have hnot : ¬ (((stop.toNat + step - 1) / step : ℕ) : ℤ) * (step : ℤ) < stop := by
      intro hcon
      have := (lt_ceilDiv_iff hstep ((stop.toNat + step - 1) / step)).mpr hcon
      omega
    push_neg at hnot
    have hcast : ((((stop.toNat + step - 1) / step - 1 : ℕ)) : ℤ) * (step : ℤ) + (step : ℤ) =
        (((stop.toNat + step - 1) / step : ℕ) : ℤ) * (step : ℤ) := by
      have h1 : ((((stop.toNat + step - 1) / step - 1 : ℕ)) : ℤ) =
          (((stop.toNat + step - 1) / step : ℕ) : ℤ) - 1 := by omega
      rw [h1]; ring
    rw [hcast]
    exact hnot

/-- The union of the tile extents is exactly the template extent. -/
theorem unionExtent_saveTiles (s : RState) (hc : Consistent s) :
    unionExtent (saveTiles s) = s.rasterlike.extent := by
  have h0w := pyRange0_zero_mem hc.bs_pos hc.w_pos
  have h0h := pyRange0_zero_mem hc.bs_pos hc.h_pos
  have ht00 : tileWorker s.rasterlike s.raster 0 0 s.blocksize s.nodata s.dict ∈
      saveTiles s := mem_saveTiles.mpr ⟨0, h0w, 0, h0h, rfl⟩
  obtain ⟨t0, ts, hts⟩ := List.exists_cons_of_ne_nil (List.ne_nil_of_mem ht00)
  have ht0mem : t0 ∈ saveTiles s := by rw [hts]; simp
  have hmem : ∀ u, u ∈ t0 :: ts → u ∈ saveTiles s := by
    intro u hu; rw [hts]; exact hu
  have hXmaxTile : ∃ t ∈ t0 :: ts, t.extent.XMax = s.rasterlike.extent.XMax := by
    refine ⟨tileWorker s.rasterlike s.raster
      (((s.rasterlike.width.toNat + s.blocksize - 1) / s.blocksize - 1 : ℕ) *
        (s.blocksize : ℤ)) 0 s.blocksize s.nodata s.dict, ?_, ?_⟩
    · rw [← hts]
      exact mem_saveTiles.mpr
        ⟨_, (pyRange0_last_mem hc.bs_pos hc.w_pos).1, 0, h0h, rfl⟩
    · rw [tileWorker_XMax,
        min_eq_right (pyRange0_last_mem hc.bs_pos hc.w_pos).2, hc.x_ext]
  have hYminTile : ∃ t ∈ t0 :: ts, t.extent.YMin = s.rasterlike.extent.YMin := by
    refine ⟨tileWorker s.rasterlike s.raster 0
      (((s.rasterlike.height.toNat + s.blocksize - 1) / s.blocksize - 1 : ℕ) *
        (s.blocksize : ℤ)) s.blocksize s.nodata s.dict, ?_, ?_⟩
    · rw [← hts]
      exact mem_saveTiles.mpr
        ⟨0, h0w, _, (pyRange0_last_mem hc.bs_pos hc.h_pos).1, rfl⟩
    · rw [tileWorker_YMin _ _ _ _ _ _ _ hc.ch_pos hc.y_ext,
        min_eq_right (pyRange0_last_mem hc.bs_pos hc.h_pos).2, hc.y_ext]
      ring
  have hXminTile : ∃ t ∈ t0 :: ts, t.extent.XMin = s.rasterlike.extent.XMin := by
    refine ⟨_, by rw [← hts]; exact ht00, ?_⟩
    rw [tileWorker_XMin]
    push_cast
    ring
  have hYmaxTile : ∃ t ∈ t0 :: ts, t.extent.YMax = s.rasterlike.extent.YMax := by
    refine ⟨_, by rw [← hts]; exact ht00, ?_⟩
    rw [tileWorker_YMax _ _ _ _ _ _ _ hc.ch_pos hc.y_ext]
    push_cast
    ring
  rw [hts]
  unfold unionExtent
  apply extent_ext
  · apply foldl_min_eq
    · intro u hu
      exact (tile_extent_bounds s hc (hmem u hu)).1
    · exact (tile_extent_bounds s hc ht0mem).1
    · right; exact hXminTile
  · apply foldl_min_eq
    · intro u hu
      exact (tile_extent_bounds s hc (hmem u hu)).2.2.1
    · exact (tile_extent_bounds s hc ht0mem).2.2.1
    · right; exact hYminTile
  · apply foldl_max_eq
    · intro u hu
      exact (tile_extent_bounds s hc (hmem u hu)).2.1
    · exact (tile_extent_bounds s hc ht0mem).2.1
    · right; exact hXmaxTile
  · apply foldl_max_eq
    · intro u hu
      exact (tile_extent_bounds s hc (hmem u hu)).2.2.2
    · exact (tile_extent_bounds s hc ht0mem).2.2.2
    · right; exact hYmaxTile

/-- Cell sizes of a worker tile come from the template. -/
theorem tileWorker_cw (rl : Grid) (raster : Option Grid) (x y : Int)
    (bs : Nat) (nd : Int) (d : Overlay) :
    (tileWorker rl raster x y bs nd d).meanCellWidth = rl.meanCellWidth := rfl

/-- Cell sizes of a worker tile come from the template. -/
theorem tileWorker_ch (rl : Grid) (raster : Option Grid) (x y : Int)
    (bs : Nat) (nd : Int) (d : Overlay) :
    (tileWorker rl raster x y bs nd d).meanCellHeight = rl.meanCellHeight := rfl

/-- When save produces at most one tile, the grid fits in a single block
and the tile list is exactly the (0,0) tile. -/
theorem saveTiles_single (s : RState) (hc : Consistent s)
    (hlen : ¬ 1 < (saveTiles s).length) :
    saveTiles s = [tileWorker s.rasterlike s.raster 0 0 s.blocksize s.nodata s.dict] ∧
    s.rasterlike.width ≤ (s.blocksize : ℤ) ∧ s.rasterlike.height ≤ (s.blocksize : ℤ) := by
  have hL := length_saveTiles s
  have hcx0 : 0 < (s.rasterlike.width.toNat + s.blocksize - 1) / s.blocksize := by
    have := (lt_ceilDiv_iff hc.bs_pos 0).mpr (by simpa using hc.w_pos)
    omega
  have hcy0 : 0 < (s.rasterlike.height.toNat + s.blocksize - 1) / s.blocksize := by
    have := (lt_ceilDiv_iff hc.bs_pos 0).mpr (by simpa using hc.h_pos)
    omega
  have hprod : ((s.rasterlike.width.toNat + s.blocksize - 1) / s.blocksize) *
      ((s.rasterlike.height.toNat + s.blocksize - 1) / s.blocksize) ≤ 1 := by
    rw [← hL]
    omega
  have hcx1 : (s.rasterlike.width.toNat + s.blocksize - 1) / s.blocksize = 1 := by
    have h1 : (s.rasterlike.width.toNat + s.blocksize - 1) / s.blocksize ≤
        (s.rasterlike.width.toNat + s.blocksize - 1) / s.blocksize *
        ((s.rasterlike.height.toNat + s.blocksize - 1) / s.blocksize) :=
      Nat.le_mul_of_pos_right _ hcy0
    omega
  have hcy1 : (s.rasterlike.height.toNat + s.blocksize - 1) / s.blocksize = 1 := by
    have h1 : (s.rasterlike.height.toNat + s.blocksize - 1) / s.blocksize ≤
        ((s.rasterlike.width.toNat + s.blocksize - 1) / s.blocksize) *
        ((s.rasterlike.height.toNat + s.blocksize - 1) / s.blocksize) :=
      Nat.le_mul_of_pos_left _ hcx0
    omega
  have hwbs : s.rasterlike.width ≤ (s.blocksize : ℤ) := by
    by_contra hcon
    push_neg at hcon
    have := (lt_ceilDiv_iff hc.bs_pos 1).mpr (by simpa using hcon)
    omega
  have hhbs : s.rasterlike.height ≤ (s.blocksize : ℤ) := by
    by_contra hcon
    push_neg at hcon
    have := (lt_ceilDiv_iff hc.bs_pos 1).mpr (by simpa using hcon)
    omega
  have hxs : pyRange0 s.rasterlike.width s.blocksize = [0] := by
    unfold pyRange0
    rw [hcx1]
    simp [List.range_succ]
  have hys : pyRange0 s.rasterlike.height s.blocksize = [0] := by
    unfold pyRange0
    rw [hcy1]
    simp [List.range_succ]
  refine ⟨?_, hwbs, hhbs⟩
  unfold saveTiles
  rw [hxs, hys]
  rfl

/-- The persisted output has exactly the dimensions of the template grid,
both through the mosaic branch and through the single-tile copy branch. -/
theorem saveOutput_dims (s : RState) (hc : Consistent s) :
    (saveOutput s).width = s.rasterlike.width ∧
    (saveOutput s).height = s.rasterlike.height := by
  unfold saveOutput
  dsimp only
  by_cases hlen : 1 < (saveTiles s).length
  · rw [if_pos hlen]
    unfold mosaicToNewRaster
    dsimp only
    rw [unionExtent_saveTiles s hc]
    constructor
    · show ⌊(s.rasterlike.extent.XMax - s.rasterlike.extent.XMin) /
          s.rasterlike.meanCellWidth⌋ = s.rasterlike.width
      rw [hc.x_ext]
      have h1 : (s.rasterlike.extent.XMin +
          (s.rasterlike.width : ℚ) * s.rasterlike.meanCellWidth -
          s.rasterlike.extent.XMin) / s.rasterlike.meanCellWidth =
          (s.rasterlike.width : ℚ) := by
        rw [show s.rasterlike.extent.XMin +
            (s.rasterlike.width : ℚ) * s.rasterlike.meanCellWidth -
            s.rasterlike.extent.XMin =
            (s.rasterlike.width : ℚ) * s.rasterlike.meanCellWidth from by ring,
          mul_div_assoc, div_self hc.cw_pos.ne', mul_one]
      rw [h1, Int.floor_intCast]
    · show ⌊(s.rasterlike.extent.YMax - s.rasterlike.extent.YMin) /
          s.rasterlike.meanCellHeight⌋ = s.rasterlike.height
      rw [hc.y_ext]
      have h1 : (s.rasterlike.extent.YMin +
          (s.rasterlike.height : ℚ) * s.rasterlike.meanCellHeight -
          s.rasterlike.extent.YMin) / s.rasterlike.meanCellHeight =
          (s.rasterlike.height : ℚ) := by
        rw [show s.rasterlike.extent.YMin +
            (s.rasterlike.height : ℚ) * s.rasterlike.meanCellHeight -
            s.rasterlike.extent.YMin =
            (s.rasterlike.height : ℚ) * s.rasterlike.meanCellHeight from by ring,
          mul_div_assoc, div_self hc.ch_pos.ne', mul_one]
      rw [h1, Int.floor_intCast]
  · rw [if_neg hlen]
    obtain ⟨hts, hwbs, hhbs⟩ := saveTiles_single s hc hlen
    rw [hts]
    constructor
    · show (tileWorker s.rasterlike s.raster 0 0 s.blocksize s.nodata s.dict).width =
        s.rasterlike.width
      rw [tileWorker_width, zero_add, min_eq_right hwbs, sub_zero]
    · show (tileWorker s.rasterlike s.raster 0 0 s.blocksize s.nodata s.dict).height =
        s.rasterlike.height
      rw [tileWorker_height, zero_add, min_eq_right hhbs, sub_zero]

/-- Flush completeness at the cell level: the persisted output of save holds
the overlay value at every in-bounds cell that had a pending write. -/
theorem saveOutput_data_overlay (s : RState) (hc : Consistent s) (r c v : Int)
    (hr0 : 0 ≤ r) (hrh : r < s.rasterlike.height)
    (hc0 : 0 ≤ c) (hcw : c < s.rasterlike.width)
    (hov : ovLookup s.dict r c = some v) :
    (saveOutput s).data r c = v := by
  have hbs := hc.bs_pos
  have hxfacts : ((c.toNat / s.blocksize * s.blocksize : ℕ) : ℤ) ≤ c ∧
      c < ((c.toNat / s.blocksize * s.blocksize : ℕ) : ℤ) + (s.blocksize : ℤ) := by
    have h1 := Nat.div_add_mod c.toNat s.blocksize
    have h2 := Nat.mod_lt c.toNat hbs
    rw [Nat.mul_comm] at h1
    constructor <;>
      (revert h1 h2
       generalize c.toNat / s.blocksize * s.blocksize = m
       intro h1 h2
       omega)
  have hyfacts : ((r.toNat / s.blocksize * s.blocksize : ℕ) : ℤ) ≤ r ∧
      r < ((r.toNat / s.blocksize * s.blocksize : ℕ) : ℤ) + (s.blocksize : ℤ) := by
    have h1 := Nat.div_add_mod r.toNat s.blocksize
    have h2 := Nat.mod_lt r.toNat hbs
    rw [Nat.mul_comm] at h1
    constructor <;>
      (revert h1 h2
       generalize r.toNat / s.blocksize * s.blocksize = m
       intro h1 h2
       omega)
  have hxmem : ((c.toNat / s.blocksize * s.blocksize : ℕ) : ℤ) ∈
      pyRange0 s.rasterlike.width s.blocksize := by
    apply (mem_pyRange0 hbs).mpr
    refine ⟨c.toNat / s.blocksize, by push_cast; ring, ?_⟩
    have h1 : ((c.toNat / s.blocksize : ℕ) : ℤ) * (s.blocksize : ℤ) =
        ((c.toNat / s.blocksize * s.blocksize : ℕ) : ℤ) := by push_cast; ring
    rw [h1]
    omega
  have hymem : ((r.toNat / s.blocksize * s.blocksize : ℕ) : ℤ) ∈
      pyRange0 s.rasterlike.height s.blocksize := by
    apply (mem_pyRange0 hbs).mpr
    refine ⟨r.toNat / s.blocksize, by push_cast; ring, ?_⟩
    have h1 : ((r.toNat / s.blocksize : ℕ) : ℤ) * (s.blocksize : ℤ) =
        ((r.toNat / s.blocksize * s.blocksize : ℕ) : ℤ) := by push_cast; ring
    rw [h1]
    omega
  unfold saveOutput
  dsimp only
  by_cases hlen : 1 < (saveTiles s).length
  · rw [if_pos hlen]
    unfold mosaicToNewRaster
    dsimp only
    rw [unionExtent_saveTiles s hc]
    simp only [valueAtPoint]
    apply foldl_if_eq
    · intro t ht hpt
      obtain ⟨x, hx, y, hy, rfl⟩ := mem_saveTiles.mp ht
      obtain ⟨hxcle, hclt, hyrle, hrlt⟩ :=
        (contains_tile_iff s.rasterlike s.raster x y r c s.blocksize s.nodata s.dict
          hc.cw_pos hc.ch_pos hc.y_ext).mp hpt
      have hrow : ⌊((tileWorker s.rasterlike s.raster x y s.blocksize s.nodata
            s.dict).extent.YMax -
          (s.rasterlike.extent.YMax - ((r : ℚ) + 1/2) * s.rasterlike.meanCellHeight)) /
          (tileWorker s.rasterlike s.raster x y s.blocksize s.nodata
            s.dict).meanCellHeight⌋ = r - y := by
        rw [tileWorker_YMax _ _ _ _ _ _ _ hc.ch_pos hc.y_ext, tileWorker_ch]
        have heq : (s.rasterlike.extent.YMax - (y : ℚ) * s.rasterlike.meanCellHeight -
            (s.rasterlike.extent.YMax - ((r : ℚ) + 1/2) * s.rasterlike.meanCellHeight)) /
            s.rasterlike.meanCellHeight = ((r - y : ℤ) : ℚ) + 1/2 := by
          rw [show s.rasterlike.extent.YMax - (y : ℚ) * s.rasterlike.meanCellHeight -
              (s.rasterlike.extent.YMax - ((r : ℚ) + 1/2) * s.rasterlike.meanCellHeight) =
              ((r : ℚ) + 1/2 - (y : ℚ)) * s.rasterlike.meanCellHeight from by ring,
            mul_div_assoc, div_self hc.ch_pos.ne', mul_one]
          push_cast
          ring
        rw [heq, floor_int_add_half]
      have hcol : ⌊((s.rasterlike.extent.XMin + ((c : ℚ) + 1/2) * s.rasterlike.meanCellWidth) -
          (tileWorker s.rasterlike s.raster x y s.blocksize s.nodata
            s.dict).extent.XMin) /
          (tileWorker s.rasterlike s.raster x y s.blocksize s.nodata
            s.dict).meanCellWidth⌋ = c - x := by
        rw [tileWorker_XMin, tileWorker_cw]
        have heq : (s.rasterlike.extent.XMin + ((c : ℚ) + 1/2) * s.rasterlike.meanCellWidth -
            (s.rasterlike.extent.XMin + (x : ℚ) * s.rasterlike.meanCellWidth)) /
            s.rasterlike.meanCellWidth = ((c - x : ℤ) : ℚ) + 1/2 := by
          rw [show s.rasterlike.extent.XMin + ((c : ℚ) + 1/2) * s.rasterlike.meanCellWidth -
              (s.rasterlike.extent.XMin + (x : ℚ) * s.rasterlike.meanCellWidth) =
              ((c : ℚ) + 1/2 - (x : ℚ)) * s.rasterlike.meanCellWidth from by ring,
            mul_div_assoc, div_self hc.cw_pos.ne', mul_one]
          push_cast
          ring
        rw [heq, floor_int_add_half]
      rw [hrow, hcol]
      exact tile_data_value s.rasterlike s.raster s.blocksize s.nodata s.dict
        x y r c v hxcle hclt hyrle hrlt hov
    · refine ⟨tileWorker s.rasterlike s.raster
        ((c.toNat / s.blocksize * s.blocksize : ℕ) : ℤ)
        ((r.toNat / s.blocksize * s.blocksize : ℕ) : ℤ)
        s.blocksize s.nodata s.dict,
        mem_saveTiles.mpr ⟨_, hxmem, _, hymem, rfl⟩, ?_⟩
      exact (contains_tile_iff s.rasterlike s.raster _ _ r c s.blocksize s.nodata s.dict
        hc.cw_pos hc.ch_pos hc.y_ext).mpr
        ⟨hxfacts.1, lt_min hxfacts.2 hcw, hyfacts.1, lt_min hyfacts.2 hrh⟩
  · rw [if_neg hlen]
    obtain ⟨hts, hwbs, hhbs⟩ := saveTiles_single s hc hlen
    rw [hts]
    show (tileWorker s.rasterlike s.raster 0 0 s.blocksize s.nodata s.dict).data r c = v
    have h := tile_data_value s.rasterlike s.raster s.blocksize s.nodata s.dict
      0 0 r c v hc0 (by rw [zero_add]; exact lt_min (by omega) hcw)
      hr0 (by rw [zero_add]; exact lt_min (by omega) hrh) hov
    rw [sub_zero, sub_zero] at h
    exact h

/-- The cached window holds the backing value 5 at local index (1,0). -/
theorem blockFun_val : blockFun 1 0 = 5 := by
  unfold blockFun rasterToNumPyArray
  norm_num [g4cells]

/-- Claim C2 is violated by the code: on the existing-raster instance with
blocksize 2, after a cached window covering cell (1,0) was loaded and the
write setValue(1,0,9) triggered the automatic flush, the immediately
following getValue(1,0) returns the stale pre-flush backing value 5 instead
of 9 — save never invalidates the cached window (self.block).  The freshly
persisted output itself does hold 9 at (1,0): only the in-memory window is
stale. -/
theorem stale_window_after_flush :
    stale4 = setValue stale3 1 0 9 ∧
    stale4.dict = [] ∧
    (getValue stale4 1 0).1 = 5 ∧
    (saveOutput sFlushed).data 1 0 = 9 := by
  refine ⟨rfl, rfl, ?_, ?_⟩
  · unfold getValue
    rw [if_neg (by decide : ¬ ((1:ℤ) < 0 ∨ (0:ℤ) < 0 ∨
      (1:ℤ) ≥ stale4.rasterlike.height ∨ (0:ℤ) ≥ stale4.rasterlike.width))]
    simp only [show ovLookup stale4.dict 1 0 = none from rfl]
    simp only [show stale4.raster = some (saveOutput sFlushed) from rfl]
    rw [if_neg (by decide : ¬ (stale4.block.isNone = true ∨
      (0:ℤ) < stale4.xblock ∨ (0:ℤ) ≥ stale4.xblock + (stale4.blocksize : ℤ) ∨
      (1:ℤ) < stale4.yblock ∨ (1:ℤ) ≥ stale4.yblock + (stale4.blocksize : ℤ)))]
    simp only [show stale4.block = some blockFun from rfl, Option.getD_some,
      show stale4.yblock = 0 from rfl, show stale4.xblock = 0 from rfl,
      sub_zero, blockFun_val,
      show (saveOutput sFlushed).noDataValue = -255 from rfl]
    norm_num
  · apply saveOutput_data_overlay sFlushed
    · refine ⟨by decide, by decide, by decide, by decide, by decide, ?_, ?_⟩
      · show (4 : ℚ) = (0 : ℚ) + ((4 : ℤ) : ℚ) * (1 : ℚ)
        push_cast
        norm_num
      · show (4 : ℚ) = (0 : ℚ) + ((4 : ℤ) : ℚ) * (1 : ℚ)
        push_cast
        norm_num
    · decide
    · decide
    · decide
    · decide
    · rfl

/-- The one-write instance over the 4 x 4 unit template is well-formed. -/
theorem oneWrite_consistent : Consistent oneWrite := by
  refine ⟨by decide, by decide, by decide, by decide, by decide, ?_, ?_⟩
  · show (4 : ℚ) = (0 : ℚ) + ((4 : ℤ) : ℚ) * (1 : ℚ)
    push_cast
    norm_num
  · show (4 : ℚ) = (0 : ℚ) + ((4 : ℤ) : ℚ) * (1 : ℚ)
    push_cast
    norm_num

/-- The 10000 x 10000 scenario instance is well-formed. -/
theorem scen_consistent : Consistent scen := by
  refine ⟨by decide, by decide, by decide, by decide, by decide, ?_, ?_⟩
  · show (10000 : ℚ) = (0 : ℚ) + ((10000 : ℤ) : ℚ) * (1 : ℚ)
    push_cast
    norm_num
  · show (10000 : ℚ) = (0 : ℚ) + ((10000 : ℤ) : ℚ) * (1 : ℚ)
    push_cast
    norm_num

/-- Claim C1 (amended): after save() returns, reading any in-bounds cell
that had an overlay entry at flush time directly from the newly persisted
output returns that entry value, and the refreshed backing raster is that
output.  The overlay is cleared immediately only when the flush was
triggered automatically from setValue; an explicit save() leaves the
overlay (and its counter) exactly as it was. -/
theorem flush_completeness (s : RState) (hc : Consistent s) :
    (∀ r c v : Int, 0 ≤ r → r < s.rasterlike.height → 0 ≤ c →
      c < s.rasterlike.width → ovLookup s.dict r c = some v →
      (saveOutput s).data r c = v) ∧
    (save s).raster = some (saveOutput s) ∧
    (save s).dict = s.dict ∧
    (save s).dictsize = s.dictsize ∧
    (∀ row col v : Int,
      s.blocksize * s.blocksize / 2 <
        (if ovLookup s.dict row col = none then s.dictsize + 1 else s.dictsize) →
      (setValue s row col v).dict = [] ∧ (setValue s row col v).dictsize = 0) := by
  refine ⟨?_, rfl, rfl, rfl, ?_⟩
  · intro r c v hr0 hrh hc0 hcw hov
    exact saveOutput_data_overlay s hc r c v hr0 hrh hc0 hcw hov
  · intro row col v htr
    rw [setValue_eq]
    by_cases hn : ovLookup s.dict row col = none
    · rw [if_pos hn] at htr
      rw [if_pos hn, if_pos htr]
      exact ⟨rfl, rfl⟩
    · rw [if_neg hn] at htr
      rw [if_neg hn, if_pos htr]
      exact ⟨rfl, rfl⟩

/-- Witness for C1 at a concrete input: the buffered write 7 at (0,0) of
`oneWrite` is present in the persisted output of save. -/
theorem flush_completeness_witness : (saveOutput oneWrite).data 0 0 = 7 :=
  (flush_completeness oneWrite oneWrite_consistent).1 0 0 7
    (by decide) (by decide) (by decide) (by decide) rfl

/-- Counterexample to C1 as stated: after an explicit save() on `oneWrite`
the overlay still holds its entry — it is not cleared.  (Only the automatic
flush inside setValue clears it.) -/
theorem save_keeps_overlay :
    (save oneWrite).dict = [(0, [(0, 7)])] ∧ (save oneWrite).dict ≠ [] := by
  exact ⟨rfl, by decide⟩

/-- Claim C6: save partitions the grid into
ceil(width/blocksize) * ceil(height/blocksize) tiles by an outer loop over
x and an inner loop over y; edge tiles are clipped to the grid boundary
(tile size min(x+blocksize,width)-x by min(y+blocksize,height)-y), and the
mosaicked output has exactly the template grid dimensions.  On the concrete
10000 x 10000 scenario with blocksize 4096 the loop origins are 0, 4096,
8192 on each axis, 9 tiles are produced, and the output reads 7 at (0,0)
and 9 at (9999,9999). -/
theorem tiling_correctness (s : RState) (hc : Consistent s) :
    ((saveTiles s).length =
      ((s.rasterlike.width.toNat + s.blocksize - 1) / s.blocksize) *
      ((s.rasterlike.height.toNat + s.blocksize - 1) / s.blocksize)) ∧
    (∀ x ∈ pyRange0 s.rasterlike.width s.blocksize,
      ∀ y ∈ pyRange0 s.rasterlike.height s.blocksize,
        (tileWorker s.rasterlike s.raster x y s.blocksize s.nodata s.dict).width =
          min (x + (s.blocksize : ℤ)) s.rasterlike.width - x ∧
        (tileWorker s.rasterlike s.raster x y s.blocksize s.nodata s.dict).height =
          min (y + (s.blocksize : ℤ)) s.rasterlike.height - y) ∧
    (saveOutput s).width = s.rasterlike.width ∧
    (saveOutput s).height = s.rasterlike.height ∧
    (pyRange0 (10000 : ℤ) 4096 = [0, 4096, 8192] ∧
      (saveTiles scen).length = 9 ∧
      (saveOutput scen).data 0 0 = 7 ∧
      (saveOutput scen).data 9999 9999 = 9) := by
  refine ⟨length_saveTiles s, fun x _ y _ => ⟨rfl, rfl⟩,
    (saveOutput_dims s hc).1, (saveOutput_dims s hc).2, rfl, rfl, ?_, ?_⟩
  · exact saveOutput_data_overlay scen scen_consistent 0 0 7
      (by decide) (by decide) (by decide) (by decide) rfl
  · exact saveOutput_data_overlay scen scen_consistent 9999 9999 9
      (by decide) (by decide) (by decide) (by decide) rfl

/-- Witness for C6 at a concrete input: the mosaicked output of the
10000 x 10000 scenario has exactly the template dimensions. -/
theorem tiling_correctness_witness :
    (saveOutput scen).width = 10000 ∧ (saveOutput scen).height = 10000 :=
  ⟨(tiling_correctness scen scen_consistent).2.2.1,
    (tiling_correctness scen scen_consistent).2.2.2.1⟩

end Raster
